import Mathlib

/-!
Verification of the CLDR plural-rule grammar engine of this repository
(lexer, parser, operand extractor, evaluator) and of the decimal data key
conversion.  The engine itself is not present under `src/` (only its test
harness `components/pluralrules/tests/rules.rs`, which calls
`parse`, `parse_condition`, `test_condition`, `Lexer` and `PluralOperands`),
so the engine definitions below are modelled from the design spec; the
decimal key conversion is translated directly from
`components/data-provider/src/decimal.rs`.
-/

/-- Value of a list of decimal digits read most-significant first
(used for the `i`, `f`, `t` operands and for number literals in rules). -/
def digitsToNat (l : List ℕ) : ℕ := l.foldl (fun a d => 10 * a + d) 0

/-- Modelled from the spec: trailing zero digits are stripped from the
fraction string before counting/parsing (for the `w` and `t` operands). -/
def stripTrailingZeros (l : List ℕ) : List ℕ :=
  (l.reverse.dropWhile (fun d => d == 0)).reverse

/-- Modelled from the spec: an exact nonnegative decimal value
`num / 10 ^ scale`; the spec requires `n` to be "the full absolute value
as an exact decimal", kept exact here so that `within` fractional-range
matches are decidable. -/
structure DecVal where
  num : ℕ
  scale : ℕ
deriving DecidableEq

/-- The rational value represented by a `DecVal`. -/
def DecVal.toQ (x : DecVal) : ℚ := (x.num : ℚ) / (10 : ℚ) ^ x.scale

/-- Does a `DecVal` represent an integer? -/
def DecVal.isInt (x : DecVal) : Bool := x.num % 10 ^ x.scale == 0

/-- Equality of a `DecVal` with a natural number. -/
def DecVal.eqNatB (x : DecVal) (u : ℕ) : Bool := x.num == u * 10 ^ x.scale

/-- `lo ≤ x` for a natural bound `lo`. -/
def DecVal.natLeB (lo : ℕ) (x : DecVal) : Bool :=
  decide (lo * 10 ^ x.scale ≤ x.num)

/-- `x ≤ hi` for a natural bound `hi`. -/
def DecVal.leNatB (x : DecVal) (hi : ℕ) : Bool :=
  decide (x.num ≤ hi * 10 ^ x.scale)

/-- Real-number remainder `x mod m` of a nonnegative exact decimal:
`(num mod (m * 10 ^ scale)) / 10 ^ scale`, which equals
`x - m * floor (x / m)`. -/
def DecVal.modB (x : DecVal) (m : ℕ) : DecVal :=
  ⟨x.num % (m * 10 ^ x.scale), x.scale⟩

/-- Modelled from the spec: the immutable CLDR operand record, one per
evaluated number (§3: `n`, `i`, `v`, `w`, `f`, `t`, with `c`/`e` the
compact-decimal exponent, 0 if absent). -/
structure PluralOperands where
  n : DecVal
  i : ℕ
  v : ℕ
  w : ℕ
  f : ℕ
  t : ℕ
  c : ℕ
deriving DecidableEq

/-- Modelled from the spec (§4.3 Operand Extractor): fields are derived
once from the integer-digit and fraction-digit sequences of the source
decimal representation.  `i` is the integer digits as an unsigned integer,
`v`/`f` count and read the fraction digits with trailing zeros, `w`/`t`
are `v`/`f` with trailing zero digits stripped from the fraction string
before counting/parsing, `n` is the exact absolute value, `c` defaults
to 0 (no compact exponent in scope of the claims). -/
def extractOperands (intDigits fracDigits : List ℕ) : PluralOperands :=
  let iv := digitsToNat intDigits
  let fv := digitsToNat fracDigits
  let stripped := stripTrailingZeros fracDigits
  { n := ⟨iv * 10 ^ fracDigits.length + fv, fracDigits.length⟩
    i := iv
    v := fracDigits.length
    w := stripped.length
    f := fv
    t := digitsToNat stripped
    c := 0 }

/-- Modelled from the spec: the operand letter a relation tests
(`n i v w f t c e`). -/
inductive OperandKind
  | n | i | v | w | f | t | c | e
deriving DecidableEq

/-- Modelled from the spec: a range-list entry is either a single integer
or an inclusive `(low, high)` pair. -/
inductive RangeOrValue
  | value (u : ℕ)
  | range (lo hi : ℕ)
deriving DecidableEq

/-- Modelled from the spec: the kind of an atomic relation —
`IsRelation(u64)` or `InOrWithinRelation { exact, ranges, modulus }`;
`exact` distinguishes `in` (only integer-valued matches count) from
`within` (any real value in range counts). -/
inductive RelationKind
  | isRelation (u : ℕ)
  | inOrWithin (exact : Bool) (ranges : List RangeOrValue) (modulus : Option ℕ)
deriving DecidableEq

/-- Modelled from the spec: one atomic test of the condition AST. -/
structure Relation where
  operand : OperandKind
  negated : Bool
  kind : RelationKind
deriving DecidableEq

/-- Modelled from the spec: `AndList(Vec<Relation>)`. -/
structure AndList where
  relations : List Relation
deriving DecidableEq

/-- Modelled from the spec: `Condition` is `OrList(Vec<AndList>)`; an
empty `OrList` represents "always true" (the absent condition of the
fallback "other" category). -/
structure Condition where
  andLists : List AndList
deriving DecidableEq

/-- Modelled from the spec (§4.4, step 1): select the operand value named
by the relation's `operand` field. -/
def operandValue (op : OperandKind) (o : PluralOperands) : DecVal :=
  match op with
  | .n => o.n
  | .i => ⟨o.i, 0⟩
  | .v => ⟨o.v, 0⟩
  | .w => ⟨o.w, 0⟩
  | .f => ⟨o.f, 0⟩
  | .t => ⟨o.t, 0⟩
  | .c => ⟨o.c, 0⟩
  | .e => ⟨o.c, 0⟩

/-- Modelled from the spec (§4.4, step 3): membership of a value in one
range-list entry; with `exact = true` the value must be an integer and
fall in the range, with `exact = false` any real value inclusively within
`[lo, hi]` matches; a singleton matches by exact equality. -/
def matchRangeOrValue (exact : Bool) (x : DecVal) : RangeOrValue → Bool
  | .value u => x.eqNatB u
  | .range lo hi => (!exact || x.isInt) && (DecVal.natLeB lo x && DecVal.leNatB x hi)

/-- Modelled from the spec (§4.4): evaluate one Relation — select the
operand value, apply the modulus if present, test membership, then apply
`negated` by inverting the final boolean. -/
def test_relation (r : Relation) (o : PluralOperands) : Bool :=
  let x := operandValue r.operand o
  let res :=
    match r.kind with
    | .isRelation u => x.eqNatB u
    | .inOrWithin exact ranges modulus =>
      let x2 := match modulus with
        | some m => x.modB m
        | none => x
      ranges.any (fun rv => matchRangeOrValue exact x2 rv)
  if r.negated then !res else res

/-- Modelled from the spec (§4.4): an `AndList` matches iff every
Relation matches. -/
def test_and_condition (a : AndList) (o : PluralOperands) : Bool :=
  a.relations.all (fun r => test_relation r o)

/-- Modelled from the spec (§4.4): an `OrList` matches iff any contained
`AndList` matches; an empty `OrList` matches (vacuous true, used by
"other"). -/
def test_condition (c : Condition) (o : PluralOperands) : Bool :=
  c.andLists.isEmpty || c.andLists.any (fun a => test_and_condition a o)

/-- Modelled from the spec (§3): the token union produced by the lexer.
The lexer performs no semantic validation, so keywords are emitted as
plain identifiers and classified by the parser (§4.1). -/
inductive Token
  | ident (s : List Char)
  | number (value : ℕ)
  | ellipsis
  | comma
  | atSign
  | eq
  | neq
  | modulo
  | eof
deriving DecidableEq

/-- Modelled from the spec (§7): the error taxonomy — lexical error
(unrecognized byte, with position), syntax error (unexpected token, with
position), semantic/data error (zero modulus, with position). -/
inductive ParseError
  | lexical (pos : ℕ)
  | unexpectedToken (pos : ℕ)
  | zeroModulus (pos : ℕ)
deriving DecidableEq

/-- Token stream with the byte position of each token's first byte. -/
abbrev Toks := List (Token × ℕ)

/-- Decimal digit value of an ASCII digit character. -/
def charDigit (ch : Char) : ℕ := ch.toNat - 48

/-- Modelled from the spec (§4.1): the lexer worker.  Whitespace is
skipped and never emitted; identifiers are maximal runs of ASCII letters;
numbers are maximal runs of ASCII digits; `..` and `...` are both
accepted as the range separator; any unrecognized byte is a lexical error
at its position.  The fuel argument is an upper bound on the number of
steps (one token or whitespace byte per step) and never runs out when it
starts at `input length + 1`. -/
def lexAux : ℕ → ℕ → List Char → Except ParseError Toks
  | 0, pos, _ => Except.error (ParseError.lexical pos)
  | _ + 1, pos, [] => Except.ok [(Token.eof, pos)]
  | fuel + 1, pos, ch :: rest =>
    if ch.isWhitespace then
      lexAux fuel (pos + 1) rest
    else if ch.isAlpha then
      let run := rest.takeWhile Char.isAlpha
      (lexAux fuel (pos + 1 + run.length) (rest.dropWhile Char.isAlpha)).map
        (fun ts => (Token.ident (ch :: run), pos) :: ts)
    else if ch.isDigit then
      let run := rest.takeWhile Char.isDigit
      (lexAux fuel (pos + 1 + run.length) (rest.dropWhile Char.isDigit)).map
        (fun ts => (Token.number (digitsToNat ((ch :: run).map charDigit)), pos) :: ts)
    else if ch = '.' then
      match rest with
      | '.' :: '.' :: r2 => (lexAux fuel (pos + 3) r2).map (fun ts => (Token.ellipsis, pos) :: ts)
      | '.' :: r2 => (lexAux fuel (pos + 2) r2).map (fun ts => (Token.ellipsis, pos) :: ts)
      | _ => Except.error (ParseError.lexical pos)
    else if ch = '!' then
      match rest with
      | '=' :: r2 => (lexAux fuel (pos + 2) r2).map (fun ts => (Token.neq, pos) :: ts)
      | _ => Except.error (ParseError.lexical pos)
    else if ch = '=' then
      (lexAux fuel (pos + 1) rest).map (fun ts => (Token.eq, pos) :: ts)
    else if ch = ',' then
      (lexAux fuel (pos + 1) rest).map (fun ts => (Token.comma, pos) :: ts)
    else if ch = '@' then
      (lexAux fuel (pos + 1) rest).map (fun ts => (Token.atSign, pos) :: ts)
    else if ch = '%' then
      (lexAux fuel (pos + 1) rest).map (fun ts => (Token.modulo, pos) :: ts)
    else Except.error (ParseError.lexical pos)

/-- Modelled from the spec (§4.1): the lexer (`Lexer` in the source test
harness) — tokenize a byte string in one pass, emitting a final `Eof`
token, or fail with a lexical error at the first unrecognized byte. -/
def lex (s : List Char) : Except ParseError Toks := lexAux (s.length + 1) 0 s

/-- Position of the next unconsumed token (for error reports). -/
def errPos : Toks → ℕ
  | [] => 0
  | (_, p) :: _ => p

/-- Consume one number literal or fail with a syntax error. -/
def expectNumber (t : Toks) : Except ParseError (ℕ × ℕ × Toks) :=
  match t with
  | (Token.number u, p) :: rest => Except.ok (u, p, rest)
  | ts => Except.error (ParseError.unexpectedToken (errPos ts))

/-- Modelled from the spec (§4.2): `range := number (".."|"...") number | number`. -/
def parseRangeOrValue (t : Toks) : Except ParseError (RangeOrValue × Toks) := do
  let (lo, _, rest) ← expectNumber t
  match rest with
  | (Token.ellipsis, _) :: rest2 => do
    let (hi, _, rest3) ← expectNumber rest2
    pure (RangeOrValue.range lo hi, rest3)
  | _ => pure (RangeOrValue.value lo, rest)

/-- Tail of `range_list := range ("," range)*`. -/
def parseRangeListAux : ℕ → List RangeOrValue → Toks → Except ParseError (List RangeOrValue × Toks)
  | 0, _, ts => Except.error (ParseError.unexpectedToken (errPos ts))
  | fuel + 1, acc, ts =>
    match ts with
    | (Token.comma, _) :: rest => do
      let (rv, rest2) ← parseRangeOrValue rest
      parseRangeListAux fuel (acc ++ [rv]) rest2
    | _ => Except.ok (acc, ts)

/-- Modelled from the spec (§4.2): `range_list := range ("," range)*`. -/
def parseRangeList (fuel : ℕ) (t : Toks) : Except ParseError (List RangeOrValue × Toks) := do
  let (rv, rest) ← parseRangeOrValue t
  parseRangeListAux fuel [rv] rest

def kwAnd : List Char := ['a', 'n', 'd']
def kwOr : List Char := ['o', 'r']
def kwMod : List Char := ['m', 'o', 'd']
def kwIn : List Char := ['i', 'n']
def kwWithin : List Char := ['w', 'i', 't', 'h', 'i', 'n']
def kwIs : List Char := ['i', 's']
def kwNot : List Char := ['n', 'o', 't']

/-- The operand letter named by an identifier, if it is one. -/
def operandOfChars (s : List Char) : Option OperandKind :=
  match s with
  | ['n'] => some OperandKind.n
  | ['i'] => some OperandKind.i
  | ['v'] => some OperandKind.v
  | ['w'] => some OperandKind.w
  | ['f'] => some OperandKind.f
  | ['t'] => some OperandKind.t
  | ['c'] => some OperandKind.c
  | ['e'] => some OperandKind.e
  | _ => none

/-- Consume the number after `mod`/`%`; a zero modulus is a semantic/data
error (§7), surfaced at parse time. -/
def parseModulusAfter (t : Toks) : Except ParseError (Option ℕ × Toks) := do
  let (u, pu, rest) ← expectNumber t
  if u = 0 then Except.error (ParseError.zeroModulus pu) else pure (some u, rest)

/-- Modelled from the spec: optional `("mod" | "%") number` attached to the
operand expression (as in the spec's examples `n mod 10 = 1` and
`i % 10 = 1..4`). -/
def parseModulus (t : Toks) : Except ParseError (Option ℕ × Toks) :=
  match t with
  | (Token.ident m, _) :: r2 => if m = kwMod then parseModulusAfter r2 else pure (none, t)
  | (Token.modulo, _) :: r2 => parseModulusAfter r2
  | _ => pure (none, t)

/-- Build an in/within relation from its parsed range list. -/
def mkInOrWithin (op : OperandKind) (neg exact : Bool) (modulus : Option ℕ) (fuel : ℕ)
    (t : Toks) : Except ParseError (Relation × Toks) := do
  let (rs, rest) ← parseRangeList fuel t
  pure ({ operand := op, negated := neg, kind := RelationKind.inOrWithin exact rs modulus }, rest)

/-- Modelled from the spec (§4.2): the operator and range-list tail of a
relation.  `=`/`!=` and `in` are exact (integer) memberships, `within` is
real membership, `is` takes a single integer; negation may appear as
`!=`, `not in`, `not within`, or `is not`, all normalized into the
Relation's `negated` flag. -/
def parseRelTail (op : OperandKind) (lead : Bool) (modulus : Option ℕ) (fuel : ℕ)
    (t : Toks) : Except ParseError (Relation × Toks) :=
  match t with
  | (Token.eq, _) :: r => mkInOrWithin op lead true modulus fuel r
  | (Token.neq, _) :: r => mkInOrWithin op (!lead) true modulus fuel r
  | (Token.ident k, pk) :: r =>
    if k = kwIn then mkInOrWithin op lead true modulus fuel r
    else if k = kwWithin then mkInOrWithin op lead false modulus fuel r
    else if k = kwNot then
      match r with
      | (Token.ident k2, p2) :: r2 =>
        if k2 = kwIn then mkInOrWithin op (!lead) true modulus fuel r2
        else if k2 = kwWithin then mkInOrWithin op (!lead) false modulus fuel r2
        else Except.error (ParseError.unexpectedToken p2)
      | ts => Except.error (ParseError.unexpectedToken (errPos ts))
    else if k = kwIs then
      match modulus with
      | some _ => Except.error (ParseError.unexpectedToken pk)
      | none =>
        match r with
        | (Token.ident nn, pn) :: r2 =>
          if nn = kwNot then do
            let (u, _, r3) ← expectNumber r2
            pure ({ operand := op, negated := !lead, kind := RelationKind.isRelation u }, r3)
          else Except.error (ParseError.unexpectedToken pn)
        | _ => do
          let (u, _, r3) ← expectNumber r
          pure ({ operand := op, negated := lead, kind := RelationKind.isRelation u }, r3)
    else Except.error (ParseError.unexpectedToken pk)
  | ts => Except.error (ParseError.unexpectedToken (errPos ts))

/-- Modelled from the spec (§4.2): one relation, with optional leading
`not`, the operand letter, an optional modulus and the operator tail. -/
def parseRelation (fuel : ℕ) (t : Toks) : Except ParseError (Relation × Toks) :=
  let leadT :=
    match t with
    | (Token.ident s, _) :: rest => if s = kwNot then (true, rest) else (false, t)
    | _ => (false, t)
  match leadT.2 with
  | (Token.ident s, p) :: rest =>
    match operandOfChars s with
    | some op => do
      let (modulus, rest2) ← parseModulus rest
      parseRelTail op leadT.1 modulus fuel rest2
    | none => Except.error (ParseError.unexpectedToken p)
  | ts => Except.error (ParseError.unexpectedToken (errPos ts))

/-- Tail of `and_condition := relation ("and" relation)*`. -/
def parseAndListAux : ℕ → List Relation → Toks → Except ParseError (List Relation × Toks)
  | 0, _, ts => Except.error (ParseError.unexpectedToken (errPos ts))
  | fuel + 1, acc, ts =>
    match ts with
    | (Token.ident s, _) :: rest =>
      if s = kwAnd then do
        let (r, rest2) ← parseRelation fuel rest
        parseAndListAux fuel (acc ++ [r]) rest2
      else Except.ok (acc, ts)
    | _ => Except.ok (acc, ts)

/-- Modelled from the spec (§4.2): `and_condition := relation ("and" relation)*`. -/
def parseAndList (fuel : ℕ) (t : Toks) : Except ParseError (AndList × Toks) := do
  let (r, rest) ← parseRelation fuel t
  let (rs, rest2) ← parseAndListAux fuel [r] rest
  pure (AndList.mk rs, rest2)

/-- Tail of `condition := and_condition ("or" and_condition)*`. -/
def parseOrListAux : ℕ → List AndList → Toks → Except ParseError (List AndList × Toks)
  | 0, _, ts => Except.error (ParseError.unexpectedToken (errPos ts))
  | fuel + 1, acc, ts =>
    match ts with
    | (Token.ident s, _) :: rest =>
      if s = kwOr then do
        let (a, rest2) ← parseAndList fuel rest
        parseOrListAux fuel (acc ++ [a]) rest2
      else Except.ok (acc, ts)
    | _ => Except.ok (acc, ts)

/-- Modelled from the spec (§4.2): `condition := and_condition ("or" and_condition)*`. -/
def parseOrList (fuel : ℕ) (t : Toks) : Except ParseError (Condition × Toks) := do
  let (a, rest) ← parseAndList fuel t
  let (as, rest2) ← parseOrListAux fuel [a] rest
  pure (Condition.mk as, rest2)

/-- Modelled from the spec (§4.2): `parse_condition` — lex the whole byte
string, parse a full condition, and require that the entire token stream
is consumed: any trailing unconsumed token other than `Eof` is a syntax
error.  No partial AST is ever returned on error. -/
def parse_condition (s : List Char) : Except ParseError Condition := do
  let toks ← lex s
  let (c, rest) ← parseOrList (s.length + 1) toks
  match rest with
  | [(Token.eof, _)] => pure c
  | ts => Except.error (ParseError.unexpectedToken (errPos ts))

/-- Modelled from the spec: `parse` — the rule-parse entry point used by
the test harness for error cases; samples (`@ ...`) are out of scope, so
a rule is exactly a condition. -/
def parse (s : List Char) : Except ParseError Condition := parse_condition s

/-- From `components/data-provider/src/decimal.rs`:
`pub enum Key { SymbolsV1 = 1 }` (the decimal data key). -/
inductive DecimalKey
  | SymbolsV1
deriving DecidableEq

/-- Modelled from the spec: the crate-level `Key` enum is declared outside
`src/`; the `From<Key>` impl in `decimal.rs` shows it has a `Decimal`
variant carrying the decimal `Key`. -/
inductive CrateKey
  | Decimal (k : DecimalKey)
deriving DecidableEq

/-- From `components/data-provider/src/decimal.rs`:
`impl From<Key> for crate::Key { fn from(value: Key) -> Self { crate::Key::Decimal(value) } }`. -/
def keyFromDecimal (k : DecimalKey) : CrateKey := CrateKey.Decimal k

instance {e a : Type} [DecidableEq e] [DecidableEq a] : DecidableEq (Except e a) := fun
  | .ok x, .ok y =>
    if h : x = y then Decidable.isTrue (by rw [h]) else Decidable.isFalse (by
      intro hh; cases hh; exact h rfl)
  | .ok _, .error _ => Decidable.isFalse (by intro hh; cases hh)
  | .error _, .ok _ => Decidable.isFalse (by intro hh; cases hh)
  | .error x, .error y =>
    if h : x = y then Decidable.isTrue (by rw [h]) else Decidable.isFalse (by
      intro hh; cases hh; exact h rfl)

lemma length_dropWhile_le {α : Type} (p : α → Bool) (l : List α) :
    (l.dropWhile p).length ≤ l.length := by
  induction l with
  | nil => simp [List.dropWhile]
  | cons a l ih =>
    rw [List.dropWhile_cons]
    split
    · exact Nat.le_succ_of_le ih
    · exact Nat.le_refl _

lemma stripTrailingZeros_length_le (l : List ℕ) :
    (stripTrailingZeros l).length ≤ l.length := by
  unfold stripTrailingZeros
  rw [List.length_reverse]
  calc (l.reverse.dropWhile (fun d => d == 0)).length
      ≤ l.reverse.length := length_dropWhile_le _ _
    _ = l.length := List.length_reverse l

lemma digits_foldl (a : ℕ) (l : List ℕ) :
    l.foldl (fun x d => 10 * x + d) a = a * 10 ^ l.length + digitsToNat l := by
  induction l generalizing a with
  | nil => simp [digitsToNat]
  | cons d l ih =>
    have hcons : digitsToNat (d :: l) = l.foldl (fun x dd => 10 * x + dd) d := by
      simp [digitsToNat]
    rw [List.foldl_cons, ih (10 * a + d), List.length_cons, hcons, ih d]
    ring

lemma digitsToNat_replicate_zero (k : ℕ) : digitsToNat (List.replicate k 0) = 0 := by
  induction k with
  | zero => rfl
  | succ k ih =>
    rw [List.replicate_succ]
    simpa [digitsToNat] using ih

lemma digits_append_zeros (l : List ℕ) (k : ℕ) :
    digitsToNat (l ++ List.replicate k 0) = digitsToNat l * 10 ^ k := by
  unfold digitsToNat
  rw [List.foldl_append, digits_foldl]
  have h0 : digitsToNat (List.replicate k 0) = 0 := digitsToNat_replicate_zero k
  simp [digitsToNat] at h0 ⊢
  simp [h0, List.length_replicate]

lemma strip_exists (l : List ℕ) :
    ∃ k, l = stripTrailingZeros l ++ List.replicate k 0 := by
  refine ⟨(l.reverse.takeWhile (fun d => d == 0)).length, ?_⟩
  have hsplit : l.reverse.takeWhile (fun d => d == 0) ++
      l.reverse.dropWhile (fun d => d == 0) = l.reverse :=
    List.takeWhile_append_dropWhile _ _
  have hrep : (l.reverse.takeWhile (fun d => d == 0)).reverse =
      List.replicate (l.reverse.takeWhile (fun d => d == 0)).length 0 := by
    refine List.eq_replicate_iff.mpr ⟨by rw [List.length_reverse], ?_⟩
    intro b hb
    have hb2 := List.mem_takeWhile_imp (List.mem_reverse.mp hb)
    simpa using hb2
  calc l = l.reverse.reverse := (List.reverse_reverse l).symm
    _ = (l.reverse.takeWhile (fun d => d == 0) ++
          l.reverse.dropWhile (fun d => d == 0)).reverse := by rw [hsplit]
    _ = (l.reverse.dropWhile (fun d => d == 0)).reverse ++
          (l.reverse.takeWhile (fun d => d == 0)).reverse := List.reverse_append _ _
    _ = stripTrailingZeros l ++ List.replicate (l.reverse.takeWhile (fun d => d == 0)).length 0 := by
        rw [hrep]; rfl

lemma digitsToNat_strip_le (l : List ℕ) :
    digitsToNat (stripTrailingZeros l) ≤ digitsToNat l := by
  obtain ⟨k, hk⟩ := strip_exists l
  conv_rhs => rw [hk]
  rw [digits_append_zeros]
  have h1 : 1 ≤ 10 ^ k := Nat.one_le_pow _ _ (by norm_num)
  calc digitsToNat (stripTrailingZeros l)
      = digitsToNat (stripTrailingZeros l) * 1 := (mul_one _).symm
    _ ≤ digitsToNat (stripTrailingZeros l) * 10 ^ k := Nat.mul_le_mul_left _ h1

lemma pow10_q_pos (s : ℕ) : (0 : ℚ) < 10 ^ s := by positivity

lemma DecVal.isInt_iff (x : DecVal) : x.isInt = true ↔ ∃ k : ℤ, x.toQ = (k : ℚ) := by
  unfold DecVal.isInt DecVal.toQ
  rw [beq_iff_eq]
  constructor
  · intro h
    obtain ⟨c, hc⟩ := Nat.dvd_of_mod_eq_zero h
    refine ⟨c, ?_⟩
    rw [hc]
    have h10 : ((10 : ℚ)) ^ x.scale ≠ 0 := ne_of_gt (pow10_q_pos _)
    push_cast
    field_simp
  · rintro ⟨k, hk⟩
    have h10 : ((10 : ℚ)) ^ x.scale ≠ 0 := ne_of_gt (pow10_q_pos _)
    rw [div_eq_iff h10] at hk
    have h3 : (x.num : ℤ) = k * 10 ^ x.scale := by exact_mod_cast hk
    have h5 : (10 : ℕ) ^ x.scale ∣ x.num := by
      have h4 : ((10 : ℕ) ^ x.scale : ℤ) ∣ (x.num : ℤ) := ⟨k, by push_cast; rw [h3]; ring⟩
      exact_mod_cast h4
    obtain ⟨c, hc⟩ := h5
    rw [hc]
    exact Nat.mul_mod_right _ _

lemma DecVal.natLeB_iff (lo : ℕ) (x : DecVal) :
    DecVal.natLeB lo x = true ↔ (lo : ℚ) ≤ x.toQ := by
  unfold DecVal.natLeB DecVal.toQ
  rw [decide_eq_true_eq, le_div_iff₀ (pow10_q_pos x.scale)]
  constructor
  · intro h; exact_mod_cast h
  · intro h; exact_mod_cast h

lemma DecVal.leNatB_iff (x : DecVal) (hi : ℕ) :
    DecVal.leNatB x hi = true ↔ x.toQ ≤ (hi : ℚ) := by
  unfold DecVal.leNatB DecVal.toQ
  rw [decide_eq_true_eq, div_le_iff₀ (pow10_q_pos x.scale)]
  constructor
  · intro h; exact_mod_cast h
  · intro h; exact_mod_cast h

lemma DecVal.eqNatB_iff (x : DecVal) (u : ℕ) :
    DecVal.eqNatB x u = true ↔ x.toQ = (u : ℚ) := by
  unfold DecVal.eqNatB DecVal.toQ
  rw [beq_iff_eq, div_eq_iff (ne_of_gt (pow10_q_pos x.scale))]
  constructor
  · intro h; exact_mod_cast h
  · intro h; exact_mod_cast h

/-- C1: `test_condition` is true on an `OrList` iff the list is empty
(the empty/absent condition used for "other", which matches every operand
record) or at least one contained `AndList` matches, and an `AndList`
matches iff every contained Relation matches. -/
theorem c1_or_and_semantics (c : Condition) (o : PluralOperands) :
    (test_condition c o = true ↔
      c.andLists = [] ∨ ∃ a ∈ c.andLists, test_and_condition a o = true) ∧
    ∀ a : AndList,
      (test_and_condition a o = true ↔ ∀ r ∈ a.relations, test_relation r o = true) := by
  constructor
  · simp [test_condition, List.isEmpty_iff, List.any_eq_true]
  · intro a
    simp [test_and_condition, List.all_eq_true]

/-- Witness for C1 at a concrete input: the empty `OrList` evaluates to
true on the operand record of the number 1. -/
theorem c1_or_and_semantics_witness :
    test_condition ⟨[]⟩ (extractOperands [1] []) = true :=
  (c1_or_and_semantics ⟨[]⟩ (extractOperands [1] [])).1.mpr (Or.inl rfl)

/-- C3: for every decimal input, the operand record satisfies `w ≤ v`,
`t ≤ f`, and `v = 0 → f = 0 ∧ t = 0` (immutability of the record is by
construction in this embedding: no operation writes to its fields). -/
theorem c3_operand_invariants (intD fracD : List ℕ) :
    (extractOperands intD fracD).w ≤ (extractOperands intD fracD).v ∧
    (extractOperands intD fracD).t ≤ (extractOperands intD fracD).f ∧
    ((extractOperands intD fracD).v = 0 →
      (extractOperands intD fracD).f = 0 ∧ (extractOperands intD fracD).t = 0) := by
  refine ⟨?_, ?_, ?_⟩
  · simpa [extractOperands] using stripTrailingZeros_length_le fracD
  · simpa [extractOperands] using digitsToNat_strip_le fracD
  · intro hv
    simp only [extractOperands] at hv
    have hnil : fracD = [] := List.length_eq_zero.mp hv
    subst hnil
    constructor <;> rfl

/-- Witness for C3 at a concrete input: the record of the number 1 has
`v = 0`, hence `f = 0` and `t = 0`, and `w ≤ v`. -/
theorem c3_operand_invariants_witness :
    (extractOperands [1] []).w ≤ (extractOperands [1] []).v ∧
    (extractOperands [1] []).f = 0 ∧ (extractOperands [1] []).t = 0 :=
  ⟨(c3_operand_invariants [1] []).1, (c3_operand_invariants [1] []).2.2 rfl⟩

/-- C4: "1.50" yields `v=2, w=1, f=50, t=5`; "1" yields
`v=0, w=0, f=0, t=0`; and in general `w`/`t` equal `v`/`f` recomputed
from the fraction-digit string with trailing zeros stripped. -/
theorem c4_fraction_extraction :
    ((extractOperands [1] [5, 0]).v = 2 ∧ (extractOperands [1] [5, 0]).w = 1 ∧
     (extractOperands [1] [5, 0]).f = 50 ∧ (extractOperands [1] [5, 0]).t = 5) ∧
    ((extractOperands [1] []).v = 0 ∧ (extractOperands [1] []).w = 0 ∧
     (extractOperands [1] []).f = 0 ∧ (extractOperands [1] []).t = 0) ∧
    ∀ intD fracD : List ℕ,
      (extractOperands intD fracD).w = (extractOperands intD (stripTrailingZeros fracD)).v ∧
      (extractOperands intD fracD).t = (extractOperands intD (stripTrailingZeros fracD)).f := by
  refine ⟨by decide, by decide, fun intD fracD => ⟨rfl, rfl⟩⟩

/-- C7: negating a Relation's `negated` flag inverts its evaluation:
`evaluate(not R, O) = !evaluate(R, O)` for every Relation and operand
record. -/
theorem c7_negation_symmetry (r : Relation) (o : PluralOperands) :
    test_relation ⟨r.operand, !r.negated, r.kind⟩ o = !(test_relation r o) := by
  obtain ⟨op, neg, k⟩ := r
  simp only [test_relation]
  cases neg <;> simp

/-- C10: the conversion of a decimal data `Key` to the crate-level `Key`
always produces the `Decimal` variant carrying the key unchanged, and is
injective. -/
theorem c10_key_conversion :
    (∀ k : DecimalKey, keyFromDecimal k = CrateKey.Decimal k) ∧
    Function.Injective keyFromDecimal := by
  refine ⟨fun k => rfl, fun a b h => ?_⟩
  cases a
  cases b
  rfl

/-- Witness for C10 at the concrete key `SymbolsV1`. -/
theorem c10_key_conversion_witness :
    keyFromDecimal DecimalKey.SymbolsV1 = CrateKey.Decimal DecimalKey.SymbolsV1 ∧
    DecimalKey.SymbolsV1 = DecimalKey.SymbolsV1 :=
  ⟨c10_key_conversion.1 DecimalKey.SymbolsV1, c10_key_conversion.2 rfl⟩

/-- C2: parsing `"i = 1 and v = 0"` succeeds with the expected AST;
evaluating it on the operands of the number 1 (no fraction digits, so
`v = 0`) gives true, on the operands of 1.0 (one visible fraction digit,
so `v = 1`) gives false. -/
theorem c2_end_to_end_one_rule :
    parse_condition
        ['i', ' ', '=', ' ', '1', ' ', 'a', 'n', 'd', ' ', 'v', ' ', '=', ' ', '0'] =
      Except.ok
        ⟨[⟨[⟨OperandKind.i, false, RelationKind.inOrWithin true [RangeOrValue.value 1] none⟩,
            ⟨OperandKind.v, false, RelationKind.inOrWithin true [RangeOrValue.value 0] none⟩]⟩]⟩ ∧
    test_condition
        ⟨[⟨[⟨OperandKind.i, false, RelationKind.inOrWithin true [RangeOrValue.value 1] none⟩,
            ⟨OperandKind.v, false, RelationKind.inOrWithin true [RangeOrValue.value 0] none⟩]⟩]⟩
        (extractOperands [1] []) = true ∧
    test_condition
        ⟨[⟨[⟨OperandKind.i, false, RelationKind.inOrWithin true [RangeOrValue.value 1] none⟩,
            ⟨OperandKind.v, false, RelationKind.inOrWithin true [RangeOrValue.value 0] none⟩]⟩]⟩
        (extractOperands [1] [0]) = false := by
  refine ⟨by decide, by decide, by decide⟩

/-- C5 (counterexample to the claim as stated): the rule `i in 1..3`
parses to a single exact relation on the `i` operand, and it DOES match
the number 1.5 — the `i` operand of 1.5 is the integer 1, which lies in
1..3 — whereas the claim asserts this rule does not match 1.5. -/
theorem c5_exact_vs_within_counterexample :
    parse_condition ['i', ' ', 'i', 'n', ' ', '1', '.', '.', '3'] =
      Except.ok
        ⟨[⟨[⟨OperandKind.i, false, RelationKind.inOrWithin true [RangeOrValue.range 1 3] none⟩]⟩]⟩ ∧
    test_condition
        ⟨[⟨[⟨OperandKind.i, false, RelationKind.inOrWithin true [RangeOrValue.range 1 3] none⟩]⟩]⟩
        (extractOperands [1] [5]) = true := by
  refine ⟨by decide, by decide⟩

/-- C5 (amended): an exact (`in`) range entry matches a value iff the
value is an integer lying inclusively in the range, a `within`
(non-exact) range entry matches iff the real value lies inclusively in
the range, and a singleton matches by exact equality; concretely,
`n in 1..3` does not match 1.5, `i in 1..3` does match 1.5 (its `i`
operand is the integer 1), and `n within 1..3` does match 1.5. -/
theorem c5_exact_vs_within_amended :
    (∀ (x : DecVal) (lo hi : ℕ),
      matchRangeOrValue true x (RangeOrValue.range lo hi) = true ↔
        (∃ k : ℤ, x.toQ = (k : ℚ)) ∧ (lo : ℚ) ≤ x.toQ ∧ x.toQ ≤ (hi : ℚ)) ∧
    (∀ (x : DecVal) (lo hi : ℕ),
      matchRangeOrValue false x (RangeOrValue.range lo hi) = true ↔
        (lo : ℚ) ≤ x.toQ ∧ x.toQ ≤ (hi : ℚ)) ∧
    (∀ (x : DecVal) (u : ℕ) (ex : Bool),
      matchRangeOrValue ex x (RangeOrValue.value u) = true ↔ x.toQ = (u : ℚ)) ∧
    test_condition
        ⟨[⟨[⟨OperandKind.n, false, RelationKind.inOrWithin true [RangeOrValue.range 1 3] none⟩]⟩]⟩
        (extractOperands [1] [5]) = false ∧
    test_condition
        ⟨[⟨[⟨OperandKind.i, false, RelationKind.inOrWithin true [RangeOrValue.range 1 3] none⟩]⟩]⟩
        (extractOperands [1] [5]) = true ∧
    test_condition
        ⟨[⟨[⟨OperandKind.n, false, RelationKind.inOrWithin false [RangeOrValue.range 1 3] none⟩]⟩]⟩
        (extractOperands [1] [5]) = true := by
  refine ⟨?_, ?_, ?_, by decide, by decide, by decide⟩
  · intro x lo hi
    simp only [matchRangeOrValue, Bool.not_true, Bool.false_or, Bool.and_eq_true]
    rw [DecVal.isInt_iff, DecVal.natLeB_iff, DecVal.leNatB_iff]
  · intro x lo hi
    simp only [matchRangeOrValue, Bool.not_false, Bool.true_or, Bool.true_and,
      Bool.and_eq_true]
    rw [DecVal.natLeB_iff, DecVal.leNatB_iff]
  · intro x u ex
    simp only [matchRangeOrValue]
    rw [DecVal.eqNatB_iff]

/-- C6: when a Relation carries a modulus `m`, the tested operand value
is replaced by `value mod m` before membership testing; the rule
`n mod 10 = 1` matches the numbers 1, 11 and 21 and does not match 10
and 12. -/
theorem c6_modulus :
    (∀ (op : OperandKind) (neg exact : Bool) (ranges : List RangeOrValue) (m : ℕ)
        (o : PluralOperands),
      test_relation ⟨op, neg, RelationKind.inOrWithin exact ranges (some m)⟩ o =
        (if neg then
          !(ranges.any (fun rv => matchRangeOrValue exact ((operandValue op o).modB m) rv))
        else
          ranges.any (fun rv => matchRangeOrValue exact ((operandValue op o).modB m) rv))) ∧
    parse_condition ['n', ' ', 'm', 'o', 'd', ' ', '1', '0', ' ', '=', ' ', '1'] =
      Except.ok
        ⟨[⟨[⟨OperandKind.n, false,
             RelationKind.inOrWithin true [RangeOrValue.value 1] (some 10)⟩]⟩]⟩ ∧
    test_condition
        ⟨[⟨[⟨OperandKind.n, false,
             RelationKind.inOrWithin true [RangeOrValue.value 1] (some 10)⟩]⟩]⟩
        (extractOperands [1] []) = true ∧
    test_condition
        ⟨[⟨[⟨OperandKind.n, false,
             RelationKind.inOrWithin true [RangeOrValue.value 1] (some 10)⟩]⟩]⟩
        (extractOperands [1, 1] []) = true ∧
    test_condition
        ⟨[⟨[⟨OperandKind.n, false,
             RelationKind.inOrWithin true [RangeOrValue.value 1] (some 10)⟩]⟩]⟩
        (extractOperands [2, 1] []) = true ∧
    test_condition
        ⟨[⟨[⟨OperandKind.n, false,
             RelationKind.inOrWithin true [RangeOrValue.value 1] (some 10)⟩]⟩]⟩
        (extractOperands [1, 0] []) = false ∧
    test_condition
        ⟨[⟨[⟨OperandKind.n, false,
             RelationKind.inOrWithin true [RangeOrValue.value 1] (some 10)⟩]⟩]⟩
        (extractOperands [1, 2] []) = false := by
  refine ⟨fun op neg exact ranges m o => rfl, by decide, by decide, by decide, by decide,
    by decide, by decide⟩

/-- C8 (counterexample to the claim as stated): `"n === 1"` is a syntax
error, but at the SECOND `=` (byte offset 3) — after consuming `n` and
the first `=` the parser requires a number and rejects the next token —
not at the third `=` (byte offset 4) as the claim asserts. -/
theorem c8_parse_error_position_counterexample :
    parse_condition ['n', ' ', '=', '=', '=', ' ', '1'] =
      Except.error (ParseError.unexpectedToken 3) ∧
    ParseError.unexpectedToken 3 ≠ ParseError.unexpectedToken 4 := by
  refine ⟨by decide, by decide⟩

/-- C8 (amended): a successful parse consumes the entire token stream up
to the final `Eof` token (so any trailing unconsumed token other than
`Eof` is a syntax error, and no partial AST is ever produced — the result
type is a full `Condition` or a `ParseError`); and `"n === 1"` parses to
a syntax error at the second `=` (byte offset 3). -/
theorem c8_parser_consumption_amended :
    (∀ (s : List Char) (c : Condition), parse_condition s = Except.ok c →
      ∃ (toks : Toks) (p : ℕ), lex s = Except.ok toks ∧
        parseOrList (s.length + 1) toks = Except.ok (c, [(Token.eof, p)])) ∧
    parse_condition ['n', ' ', '=', '=', '=', ' ', '1'] =
      Except.error (ParseError.unexpectedToken 3) := by
  refine ⟨?_, by decide⟩
  intro s c h
  simp only [parse_condition, bind, Except.bind] at h
  cases hl : lex s with
  | error e => rw [hl] at h; simp at h
  | ok toks =>
    rw [hl] at h
    dsimp only at h
    cases hp : parseOrList (s.length + 1) toks with
    | error e => rw [hp] at h; simp at h
    | ok pr =>
      rw [hp] at h
      dsimp only at h
      obtain ⟨c', rest⟩ := pr
      split at h
      · rename_i p heq
        simp only [pure, Except.pure, Except.ok.injEq] at h
        subst h
        simp only at heq
        exact ⟨toks, p, rfl, by rw [hp, heq]⟩
      · simp at h

/-- Witness for C8 at a concrete input: parsing `"n = 1"` succeeds and
consumed the whole token stream up to `Eof`. -/
theorem c8_parser_consumption_witness :
    ∃ (toks : Toks) (p : ℕ),
      lex ['n', ' ', '=', ' ', '1'] = Except.ok toks ∧
      parseOrList (['n', ' ', '=', ' ', '1'].length + 1) toks =
        Except.ok
          (⟨[⟨[⟨OperandKind.n, false, RelationKind.inOrWithin true [RangeOrValue.value 1] none⟩]⟩]⟩,
           [(Token.eof, p)]) :=
  c8_parser_consumption_amended.1 ['n', ' ', '=', ' ', '1']
    ⟨[⟨[⟨OperandKind.n, false, RelationKind.inOrWithin true [RangeOrValue.value 1] none⟩]⟩]⟩
    (by decide)

/-- C9: the parse step is a total function into a typed result — for
every input byte string it returns either a complete `Condition` or a
typed `ParseError` (never a panic/abort, which a total Lean function
cannot model anyway); concretely, each class of the error taxonomy is
returned as a typed value: a lexical error for an unrecognized byte, a
semantic/data error for a zero modulus, and a syntax error for a
malformed condition. -/
theorem c9_typed_errors :
    (∀ s : List Char, (∃ c, parse s = Except.ok c) ∨ (∃ e, parse s = Except.error e)) ∧
    parse ['n', ' ', '#', ' ', '1'] = Except.error (ParseError.lexical 2) ∧
    parse ['n', ' ', 'm', 'o', 'd', ' ', '0', ' ', '=', ' ', '1'] =
      Except.error (ParseError.zeroModulus 6) ∧
    parse ['n', ' ', 'i', 's', ' ', '1', ' ', '1'] =
      Except.error (ParseError.unexpectedToken 7) := by
  refine ⟨?_, by decide, by decide, by decide⟩
  intro s
  cases h : parse s with
  | ok c => exact Or.inl ⟨c, rfl⟩
  | error e => exact Or.inr ⟨e, rfl⟩
